import Mathlib

/-!
Shallow embedding of the UK-Chemical inventory dashboard's core logic:
the stock ledger (`InventoryContext`, canonical Supabase-backed variant),
the notification deriver, the session manager, the entity mappers, and
the invoice form arithmetic from the Invoices page.

Conventions of the embedding:
* JavaScript numbers that hold quantities, prices and amounts are
  modelled as `Int`.
* Calendar timestamps are modelled as integers (days); parsing a date
  string is an explicit parameter `dv`; an unparseable date (JS
  `Invalid Date`, i.e. NaN) is `none`, and every `<` comparison against
  NaN is false, as in JS.
* Nullable string fields of the wire rows are `Option String`; the JS
  `x || y` fallback (where both `null`/`undefined` and `""` are falsy)
  is `jsOr`.
* Each ledger operation is a pure function of the pre-state, its
  arguments, and the outcome of the remote (Supabase) call it issues;
  it returns the post-state together with the log rows it inserted
  remotely, the user-facing alerts it raised, and its return value.
-/

namespace UKChem

/-- JS string fallback `s || d`: `null`/`undefined` and `""` are falsy. -/
def jsOr (s : Option String) (d : String) : String :=
  match s with
  | none => d
  | some v => if v = "" then d else v

/-- JS `s || null` on a nullable string. -/
def jsOrNull (s : Option String) : Option String :=
  match s with
  | none => none
  | some v => if v = "" then none else some v

/-- The two stock locations (`types.ts` `Location`). -/
inductive Location where
  | Warehouse
  | MainOffice
deriving DecidableEq, Repr

/-- Render a `Location` the way the TS string union spells it. -/
def Location.str : Location → String
  | .Warehouse => "Warehouse"
  | .MainOffice => "Main Office"

/-- Application user (`types.ts` `User`); the role is kept as the raw
string the profile row carries (`'MANAGER' | 'STAFF'`, unchecked cast). -/
structure User where
  id : String
  name : String
  email : String
  role : String
deriving DecidableEq, Repr

/-- Product entity (`types.ts` `Product`); date and agent fields are
nullable at runtime (rows may carry SQL NULL). -/
structure Product where
  id : String
  name : String
  category : String
  unit : String
  qtyWarehouse : Int
  qtyOffice : Int
  reorderLevel : Int
  productionDate : Option String
  expirationDate : Option String
  origin : Option String
  deliveryAgent : Option String
  price : Int
  supplier : String
deriving DecidableEq, Repr

/-- Supplier entity (`types.ts` `Supplier`). -/
structure Supplier where
  id : String
  companyName : String
  contactName : String
  email : String
  phone : String
deriving DecidableEq, Repr

/-- Invoice line item (`types.ts` `InvoiceItem`). -/
structure InvoiceItem where
  id : String
  description : String
  quantity : Int
  rate : Int
  amount : Int
deriving DecidableEq, Repr

/-- Invoice entity (`types.ts` `Invoice`). -/
structure Invoice where
  id : String
  invoiceNumber : String
  customerName : String
  customerAddress : String
  customerContact : String
  date : String
  items : List InvoiceItem
  totalAmount : Int
deriving DecidableEq, Repr

/-- `Omit<Invoice, 'id'>`: the payload handed to `addInvoice`. -/
structure InvoiceData where
  invoiceNumber : String
  customerName : String
  customerAddress : String
  customerContact : String
  date : String
  items : List InvoiceItem
  totalAmount : Int
deriving DecidableEq, Repr

/-- Attach an id to an `addInvoice` payload. -/
def InvoiceData.withId (d : InvoiceData) (id : String) : Invoice :=
  ⟨id, d.invoiceNumber, d.customerName, d.customerAddress, d.customerContact,
   d.date, d.items, d.totalAmount⟩

/-- A row inserted into the remote `logs` table by `logAction`. -/
structure LogRow where
  action : String
  product_name : String
  details : String
  performed_by : String
deriving DecidableEq, Repr

/-- Derived notification (`types.ts` `Notification`); the claim-relevant
fields. `ntype` is the source's `type` field (a Lean keyword). -/
structure Notif where
  id : String
  title : String
  ntype : String
deriving DecidableEq, Repr

/-- The provider's mutable collections: the current user, the in-memory
entity lists, the mirrored local-storage invoice list
(`ukchem_invoices`), and the derived notifications. -/
structure LedgerState where
  currentUser : Option User
  products : List Product
  suppliers : List Supplier
  invoices : List Invoice
  localInvoices : List Invoice
  notifications : List Notif
deriving DecidableEq, Repr

/-- A remote mutation issued against the store by the stock operations. -/
inductive RemoteCall where
  | productsUpdate (id : String) (qtyW qtyO : Option Int)
  | logsInsert (row : LogRow)
deriving DecidableEq, Repr

/-- Result of a ledger operation: post-state, log rows inserted
remotely, alerts shown to the user, and the boolean return value. -/
structure OpOut where
  state : LedgerState
  logWrites : List LogRow
  alerts : List String
  ret : Bool
deriving DecidableEq, Repr

/-- Result of `adjustStock`/`transferStock` (void return): post-state,
log inserts, alerts, and every remote call issued. -/
structure StockOut where
  state : LedgerState
  logWrites : List LogRow
  alerts : List String
  calls : List RemoteCall
deriving DecidableEq, Repr

/-- `currentUser?.role === 'MANAGER'` (the negation of every role
guard's test). -/
def isManagerOpt (u : Option User) : Bool :=
  (u.map User.role) == some "MANAGER"

/-- `logAction`: insert one row into `logs`, attributed to the current
user's display name; a missing user short-circuits to no insert. -/
def logAction (cu : Option User) (action productName details : String) :
    List LogRow :=
  match cu with
  | none => []
  | some u => [⟨action, productName, details, u.name⟩]

/-- `addProduct` (canonical variant): manager-gated; remote insert
first; on success append to the in-memory list and log `CREATE`. -/
def addProduct (st : LedgerState) (product : Product) (remoteOk : Bool) :
    OpOut :=
  if ¬ isManagerOpt st.currentUser then
    ⟨st, [], ["Only Managers can add products."], false⟩
  else if ¬ remoteOk then
    ⟨st, [], ["Failed to add product."], false⟩
  else
    ⟨{ st with products := st.products ++ [product] },
     logAction st.currentUser "CREATE" product.name "Added new product",
     [], true⟩

/-- `updateProduct`: manager-gated; remote update first; on success
replace the entity by id and log `UPDATE`. -/
def updateProduct (st : LedgerState) (product : Product) (remoteOk : Bool) :
    OpOut :=
  if ¬ isManagerOpt st.currentUser then
    ⟨st, [], ["Only Managers can update products."], false⟩
  else if ¬ remoteOk then
    ⟨st, [], ["Failed to update product."], false⟩
  else
    ⟨{ st with
        products := st.products.map (fun p => if p.id = product.id then product else p) },
     logAction st.currentUser "UPDATE" product.name "Updated details",
     [], true⟩

/-- `deleteProduct`: manager-gated; remote delete first; on success
filter the entity out and log `DELETE` under the looked-up name
(falling back to `'Product'` on a missing or empty name, JS `||`). -/
def deleteProduct (st : LedgerState) (id : String) (remoteOk : Bool) :
    OpOut :=
  if ¬ isManagerOpt st.currentUser then
    ⟨st, [], ["Only Managers can delete products."], false⟩
  else
    let pName := jsOr ((st.products.find? (fun p => p.id == id)).map Product.name) "Product"
    if ¬ remoteOk then
      ⟨st, [], ["Failed to delete product."], false⟩
    else
      ⟨{ st with products := st.products.filter (fun p => ¬ p.id = id) },
       logAction st.currentUser "DELETE" pName "Deleted product",
       [], true⟩

/-- `addSupplier` (canonical variant): no role guard and no log write;
remote insert, then append to the in-memory list. -/
def addSupplier (st : LedgerState) (supplier : Supplier) (remoteOk : Bool) :
    OpOut :=
  if ¬ remoteOk then
    ⟨st, [], ["Failed to add supplier."], false⟩
  else
    ⟨{ st with suppliers := st.suppliers ++ [supplier] }, [], [], true⟩

/-- `updateSupplier` (canonical variant): no role guard, no log write. -/
def updateSupplier (st : LedgerState) (supplier : Supplier) (remoteOk : Bool) :
    OpOut :=
  if ¬ remoteOk then
    ⟨st, [], ["Failed to update supplier."], false⟩
  else
    ⟨{ st with
        suppliers := st.suppliers.map (fun s => if s.id = supplier.id then supplier else s) },
     [], [], true⟩

/-- `deleteSupplier` (canonical variant): no role guard, no log write. -/
def deleteSupplier (st : LedgerState) (id : String) (remoteOk : Bool) :
    OpOut :=
  if ¬ remoteOk then
    ⟨st, [], ["Failed to delete supplier."], false⟩
  else
    ⟨{ st with suppliers := st.suppliers.filter (fun s => ¬ s.id = id) },
     [], [], true⟩

/-- `adjustStock`: silently no-op when the product id is unknown; else
issue one `products` update of the single touched counter, and on
success log `ADD` when `delta > 0` else `REMOVE`.  The in-memory
product list is not touched (the realtime refetch refreshes it). -/
def adjustStock (st : LedgerState) (productId : String) (location : Location)
    (delta : Int) (reason : String) (remoteOk : Bool) : StockOut :=
  match st.products.find? (fun p => p.id == productId) with
  | none => ⟨st, [], [], []⟩
  | some product =>
    let currentQty := if location = .Warehouse then product.qtyWarehouse else product.qtyOffice
    let newQty := currentQty + delta
    let call := if location = .Warehouse then
        RemoteCall.productsUpdate productId (some newQty) none
      else
        RemoteCall.productsUpdate productId none (some newQty)
    if ¬ remoteOk then
      ⟨st, [], ["Failed to adjust stock."], [call]⟩
    else
      let rows := logAction st.currentUser (if delta > 0 then "ADD" else "REMOVE")
        product.name (s!"{reason} ({delta})")
      ⟨st, rows, [], [call] ++ rows.map RemoteCall.logsInsert⟩

/-- The `(qty_warehouse, qty_office)` update payload `transferStock`
sends, exactly as the source conditions compute it. -/
def transferPayload (product : Product) (fromLoc toLoc : Location) (amount : Int) :
    Int × Int :=
  let fromQty := if fromLoc = .Warehouse then product.qtyWarehouse else product.qtyOffice
  let toQty := if toLoc = .Warehouse then product.qtyWarehouse else product.qtyOffice
  (if fromLoc = .Warehouse then fromQty - amount else toQty + amount,
   if fromLoc = .MainOffice then fromQty - amount else toQty + amount)

/-- `transferStock`: silently no-op when the product id is unknown;
else issue one `products` update setting both counters to the payload,
and on success log `TRANSFER`.  In-memory products are not touched. -/
def transferStock (st : LedgerState) (productId : String) (fromLoc toLoc : Location)
    (amount : Int) (remoteOk : Bool) : StockOut :=
  match st.products.find? (fun p => p.id == productId) with
  | none => ⟨st, [], [], []⟩
  | some product =>
    let pay := transferPayload product fromLoc toLoc amount
    let call := RemoteCall.productsUpdate productId (some pay.1) (some pay.2)
    if ¬ remoteOk then
      ⟨st, [], ["Failed to transfer stock."], [call]⟩
    else
      let rows := logAction st.currentUser "TRANSFER" product.name
        ("Moved " ++ toString amount ++ " " ++ product.unit ++ " to " ++ toLoc.str)
      ⟨st, rows, [], [call] ++ rows.map RemoteCall.logsInsert⟩

/-- Apply a remote `products` update (`eq('id', id)`, patching only the
counters the payload carries) to a row list. -/
def applyProductsUpdate (rows : List Product) (id : String)
    (qtyW qtyO : Option Int) : List Product :=
  rows.map (fun r =>
    if r.id = id then
      { r with qtyWarehouse := qtyW.getD r.qtyWarehouse,
               qtyOffice := qtyO.getD r.qtyOffice }
    else r)

/-- Insert an invoice into a date-descending list (`dv` parses the date
string to a timestamp), modelling the JS `sort` by `date` descending. -/
def insertDateDesc (dv : String → Int) (x : Invoice) :
    List Invoice → List Invoice
  | [] => [x]
  | y :: ys =>
    if dv y.date < dv x.date then x :: y :: ys
    else y :: insertDateDesc dv x ys

/-- Sort invoices by parsed date, newest first. -/
def sortDateDesc (dv : String → Int) (l : List Invoice) : List Invoice :=
  l.foldr (insertDateDesc dv) []

/-- `saveInvoiceToLocal`: replace-or-add the invoice in the
local-storage list and in the in-memory list (re-sorted newest first),
alert that the database was unavailable, and return true; a local
storage failure (`localOk = false`) leaves everything unchanged and
returns false.  Never logs. -/
def saveInvoiceToLocal (st : LedgerState) (invoice : Invoice)
    (dv : String → Int) (localOk : Bool) : OpOut :=
  if ¬ localOk then
    ⟨st, [], [], false⟩
  else
    ⟨{ st with
        localInvoices := (st.localInvoices.filter (fun i => ¬ i.id = invoice.id)) ++ [invoice],
        invoices := sortDateDesc dv
          (invoice :: st.invoices.filter (fun i => ¬ i.id = invoice.id)) },
     [], ["Database offline/unavailable. Invoice saved to LOCAL storage."], true⟩

/-- JS `id.startsWith('local-')`, the marker of a locally-identified
invoice, as a prefix test on the character lists. -/
def startsWithLocal (id : String) : Bool :=
  "local-".data.isPrefixOf id.data

/-- `deleteInvoiceFromLocal`: drop the id from the local-storage list
and the in-memory list. -/
def deleteInvoiceFromLocal (st : LedgerState) (id : String) : LedgerState :=
  { st with
      localInvoices := st.localInvoices.filter (fun i => ¬ i.id = id),
      invoices := st.invoices.filter (fun i => ¬ i.id = id) }

/-- `addInvoice`: manager-gated; remote insert first.  On success
(`remoteId = some id`) prepend the returned row and log `CREATE`; on
remote failure fall back to a locally-identified record
(`'local-' ++ suffix`), which never logs. -/
def addInvoice (st : LedgerState) (invoiceData : InvoiceData)
    (remoteId : Option String) (suffix : String) (dv : String → Int)
    (localOk : Bool) : OpOut :=
  if ¬ isManagerOpt st.currentUser then
    ⟨st, [], ["Only Managers can create invoices."], false⟩
  else
    match remoteId with
    | none =>
      saveInvoiceToLocal st (invoiceData.withId ("local-" ++ suffix)) dv localOk
    | some newId =>
      ⟨{ st with invoices := invoiceData.withId newId :: st.invoices },
       logAction st.currentUser "CREATE" ("Invoice " ++ invoiceData.invoiceNumber)
         "Created invoice",
       [], true⟩

/-- `updateInvoice`: manager-gated; locally-identified invoices and
remote failures route through `saveInvoiceToLocal` (no log); on remote
success replace by id and log `UPDATE`. -/
def updateInvoice (st : LedgerState) (invoice : Invoice) (remoteOk : Bool)
    (dv : String → Int) (localOk : Bool) : OpOut :=
  if ¬ isManagerOpt st.currentUser then
    ⟨st, [], ["Only Managers can update invoices."], false⟩
  else if startsWithLocal invoice.id then
    saveInvoiceToLocal st invoice dv localOk
  else if ¬ remoteOk then
    saveInvoiceToLocal st invoice dv localOk
  else
    ⟨{ st with
        invoices := st.invoices.map (fun i => if i.id = invoice.id then invoice else i) },
     logAction st.currentUser "UPDATE" ("Invoice " ++ invoice.invoiceNumber)
       "Updated invoice",
     [], true⟩

/-- `deleteInvoice`: manager-gated; local ids are removed locally; a
remote failure still force-removes locally (with an alert) and reports
success.  No path writes a log row. -/
def deleteInvoice (st : LedgerState) (id : String) (remoteOk : Bool) : OpOut :=
  if ¬ isManagerOpt st.currentUser then
    ⟨st, [], ["Only Managers can delete invoices."], false⟩
  else if startsWithLocal id then
    ⟨deleteInvoiceFromLocal st id, [], [], true⟩
  else if ¬ remoteOk then
    ⟨deleteInvoiceFromLocal st id, [],
     ["Could not connect to database, but invoice removed from your view."], true⟩
  else
    ⟨{ st with invoices := st.invoices.filter (fun i => ¬ i.id = id) },
     [], [], true⟩

/-- JS `<` against a possibly-invalid date: comparing `Invalid Date`
(NaN, here `none`) with anything is false. -/
def ltNaN (e : Option Int) (t : Int) : Bool :=
  match e with
  | none => false
  | some v => v < t

/-- The notifications `checkNotifications` pushes for one product, in
source order: the low-stock rule, then the expired / expiring-soon
branch.  `dv` parses a nullable date string to a timestamp (in days),
`threshold` is the expiry threshold in days, `now` today. -/
def notifsFor (dv : Option String → Option Int) (threshold now : Int)
    (p : Product) : List Notif :=
  let total := p.qtyWarehouse + p.qtyOffice
  let expiry := dv p.expirationDate
  (if total ≤ p.reorderLevel then
    [⟨"low-" ++ p.id, "Low Stock Alert", "WARNING"⟩]
   else []) ++
  (if ltNaN expiry now then
    [⟨"exp-" ++ p.id, "Product Expired", "DANGER"⟩]
   else if ltNaN expiry (now + threshold) then
    [⟨"soon-" ++ p.id, "Expiring Soon", "INFO"⟩]
   else [])

/-- `checkNotifications`: derive the full notification list from the
product set (the `forEach`/push loop), replacing whatever was there. -/
def checkNotifications (dv : Option String → Option Int)
    (products : List Product) (threshold now : Int) : List Notif :=
  products.flatMap (notifsFor dv threshold now)

/-- Run the derivation against the state: `setNotifications(newNotifs)`
replaces the previous list wholesale. -/
def runDerivation (dv : Option String → Option Int) (threshold now : Int)
    (st : LedgerState) : LedgerState :=
  { st with notifications := checkNotifications dv st.products threshold now }

/-- The one hardcoded administrative address of the admin override. -/
def adminEmail : String := "sagyeimensah@yahoo.com"

/-- A `profiles` row as `handleUserSession` reads it. -/
structure ProfileRow where
  id : String
  email : Option String
  full_name : Option String
  role : String
deriving DecidableEq, Repr

/-- Outcome of a session resolution: the resolved user, how many
role-reconciliation updates were issued, and how many self-healing
profile inserts were attempted. -/
structure SessionOut where
  user : User
  roleUpdateWrites : Nat
  profileInsertWrites : Nat
deriving DecidableEq, Repr

/-- `handleUserSession` (normal path): look the profile up by id; if
absent (or errored) self-heal with role STAFF — MANAGER when the email
is the admin address; then, for the admin address, force the role to
MANAGER and issue one write-behind role update.  The display name and
email fall back through the JS `||` chain. -/
def handleUserSession (userId : String) (email : Option String)
    (lookup : Option ProfileRow) : SessionOut :=
  let isSuperAdmin := email = some adminEmail
  let base : ProfileRow × Nat :=
    match lookup with
    | some p => (p, 0)
    | none =>
      ({ id := userId, email := email, full_name := some "Staff Member",
         role := if isSuperAdmin then "MANAGER" else "STAFF" }, 1)
  let profile := base.1
  let forced : ProfileRow × Nat :=
    if isSuperAdmin then ({ profile with role := "MANAGER" }, 1) else (profile, 0)
  let p := forced.1
  { user :=
      { id := p.id,
        name := jsOr p.full_name
          (jsOr (email.map (fun e => (e.splitOn "@").headD "")) "User"),
        email := jsOr p.email (jsOr email ""),
        role := p.role },
    roleUpdateWrites := forced.2,
    profileInsertWrites := base.2 }

/-- `handleUserSession`'s catch handler: when the whole resolution
throws, the admin address still gets a transient MANAGER user; any
other identity sets no user at all. -/
def handleUserSessionCatch (userId : String) (email : Option String) :
    Option User :=
  if email = some adminEmail then
    some { id := userId, name := "Manager", email := adminEmail, role := "MANAGER" }
  else
    none

/-- The id-less part of a `products` wire row (the shape `addProduct`
inserts). -/
structure ProductRowData where
  name : String
  category : String
  unit : String
  qty_warehouse : Int
  qty_office : Int
  reorder_level : Int
  production_date : Option String
  expiration_date : Option String
  origin : Option String
  delivery_agent : Option String
  price : Int
  supplier : String
deriving DecidableEq, Repr

/-- A full `products` wire row as `fetchAllData` receives it. -/
structure ProductRow where
  id : String
  name : String
  category : String
  unit : String
  qty_warehouse : Int
  qty_office : Int
  reorder_level : Int
  production_date : Option String
  expiration_date : Option String
  origin : Option String
  delivery_agent : Option String
  price : Int
  supplier : String
deriving DecidableEq, Repr

/-- Drop the id, keeping the insertable payload. -/
def ProductRow.toData (r : ProductRow) : ProductRowData :=
  ⟨r.name, r.category, r.unit, r.qty_warehouse, r.qty_office, r.reorder_level,
   r.production_date, r.expiration_date, r.origin, r.delivery_agent,
   r.price, r.supplier⟩

/-- Row-to-entity mapping from `fetchAllData` (the `Number(...)`
coercions are identities in the integer model). -/
def productFromRow (r : ProductRow) : Product :=
  { id := r.id, name := r.name, category := r.category, unit := r.unit,
    qtyWarehouse := r.qty_warehouse, qtyOffice := r.qty_office,
    reorderLevel := r.reorder_level,
    productionDate := r.production_date, expirationDate := r.expiration_date,
    origin := r.origin, deliveryAgent := r.delivery_agent,
    price := r.price, supplier := r.supplier }

/-- Entity-to-row mapping: the `dbProduct` object `addProduct` and
`updateProduct` build (`production_date: product.productionDate || null`,
etc.). -/
def productToRowData (p : Product) : ProductRowData :=
  { name := p.name, category := p.category, unit := p.unit,
    qty_warehouse := p.qtyWarehouse, qty_office := p.qtyOffice,
    reorder_level := p.reorderLevel,
    production_date := jsOrNull p.productionDate,
    expiration_date := jsOrNull p.expirationDate,
    origin := p.origin, delivery_agent := p.deliveryAgent,
    price := p.price, supplier := p.supplier }

/-- The remote `items` JSON value of an invoice row: a real array, or
anything else (missing / non-array), which the defensive parse maps to
the empty list. -/
inductive RowItems where
  | arr (l : List InvoiceItem)
  | nonArray
deriving DecidableEq, Repr

/-- The id-less part of an `invoices` wire row (the update payload). -/
structure InvoiceRowData where
  invoice_number : String
  customer_name : String
  customer_address : String
  customer_contact : String
  date : String
  items : RowItems
  total_amount : Int
deriving DecidableEq, Repr

/-- A full `invoices` wire row. -/
structure InvoiceRow where
  id : String
  invoice_number : String
  customer_name : String
  customer_address : String
  customer_contact : String
  date : String
  items : RowItems
  total_amount : Int
deriving DecidableEq, Repr

/-- Drop the id, keeping the updatable payload. -/
def InvoiceRow.toData (r : InvoiceRow) : InvoiceRowData :=
  ⟨r.invoice_number, r.customer_name, r.customer_address, r.customer_contact,
   r.date, r.items, r.total_amount⟩

/-- Row-to-entity mapping from `fetchAllData`
(`Array.isArray(i.items) ? i.items : []`). -/
def invoiceFromRow (r : InvoiceRow) : Invoice :=
  { id := r.id, invoiceNumber := r.invoice_number,
    customerName := r.customer_name, customerAddress := r.customer_address,
    customerContact := r.customer_contact, date := r.date,
    items := match r.items with | .arr l => l | .nonArray => [],
    totalAmount := r.total_amount }

/-- Entity-to-row mapping: the `dbInvoice` object `updateInvoice`
builds (items serialize back as a JSON array). -/
def invoiceToRowData (i : Invoice) : InvoiceRowData :=
  { invoice_number := i.invoiceNumber, customer_name := i.customerName,
    customer_address := i.customerAddress, customer_contact := i.customerContact,
    date := i.date, items := .arr i.items, total_amount := i.totalAmount }

/-- An edit of one invoice-item field through `handleItemChange`, as the
Invoices form invokes it (description, quantity or rate). -/
inductive FieldChange where
  | description (s : String)
  | quantity (n : Int)
  | rate (n : Int)
deriving DecidableEq, Repr

/-- One user interaction with the invoice item table. -/
inductive FormOp where
  | addItem (newId : String)
  | removeItem (id : String)
  | itemChange (id : String) (f : FieldChange)
  | productSelect (itemId : String) (productName : String) (productPrice : Int)
deriving DecidableEq, Repr

/-- `handleItemChange`'s per-item update: set the field, and recompute
`amount = quantity * rate` when quantity or rate changed. -/
def applyFieldChange (item : InvoiceItem) (f : FieldChange) : InvoiceItem :=
  match f with
  | .description s => { item with description := s }
  | .quantity n => { item with quantity := n, amount := n * item.rate }
  | .rate n => { item with rate := n, amount := item.quantity * n }

/-- Apply one form interaction to the item list, exactly as the
handlers in `Invoices.tsx` do. -/
def applyFormOp (items : List InvoiceItem) (op : FormOp) : List InvoiceItem :=
  match op with
  | .addItem newId => items ++ [⟨newId, "", 1, 0, 0⟩]
  | .removeItem id => items.filter (fun i => ¬ i.id = id)
  | .itemChange id f =>
    items.map (fun item => if item.id = id then applyFieldChange item f else item)
  | .productSelect itemId productName productPrice =>
    items.map (fun item =>
      if item.id = itemId then
        { item with description := productName, rate := productPrice,
                    amount := productPrice * item.quantity }
      else item)

/-- Fold a whole interaction history over the item list. -/
def applyFormOps (items : List InvoiceItem) (ops : List FormOp) : List InvoiceItem :=
  ops.foldl applyFormOp items

/-- The initial `formItems` state (one empty line with quantity 1). -/
def initialFormItems : List InvoiceItem :=
  [⟨"1", "", 1, 0, 0⟩]

/-- `handleSave`'s total: `formItems.reduce((sum, item) => sum + item.amount, 0)`. -/
def handleSaveTotal (items : List InvoiceItem) : Int :=
  items.foldl (fun sum item => sum + item.amount) 0

/-! ## Concrete fixtures used by witnesses and counterexamples -/

/-- A sample product with (100, 20) stock split. -/
def pA : Product :=
  ⟨"p1", "Sulphuric Acid", "Acids", "L", 100, 20, 10, none, none, none, none, 5, "Acme"⟩

/-- A sample supplier. -/
def sX : Supplier := ⟨"s9", "Acme Ltd", "Jo", "jo@acme.com", "+233000000"⟩

/-- A sample invoice already present remotely. -/
def invA : Invoice := ⟨"i1", "INV-20251001", "Kofi", "Accra", "020", "2025-10-01", [], 0⟩

/-- A state whose current user is a MANAGER. -/
def stMgr : LedgerState :=
  ⟨some ⟨"u1", "Alice", "alice@ukchem.com", "MANAGER"⟩, [pA], [], [invA], [], []⟩

/-- A state whose current user is STAFF. -/
def stStaff : LedgerState :=
  ⟨some ⟨"u2", "Bob", "bob@ukchem.com", "STAFF"⟩, [pA], [], [invA], [], []⟩

/-! ## Claim theorems -/

/-- Claim C1: for a transfer between the two distinct locations of a
product the ledger knows, the `(qty_warehouse, qty_office)` payload the
operation writes conserves the product's total stock — the `from`
counter drops by `amount`, the `to` counter rises by `amount` — and the
row update leaves every product with a different id unchanged. -/
theorem transfer_conserves_total (st : LedgerState) (pid : String)
    (fromLoc toLoc : Location) (amount : Int) (remoteOk : Bool) (product : Product)
    (hft : fromLoc ≠ toLoc)
    (hfind : st.products.find? (fun p => p.id == pid) = some product) :
    ((transferStock st pid fromLoc toLoc amount remoteOk).calls.head? =
      some (RemoteCall.productsUpdate pid
        (some (transferPayload product fromLoc toLoc amount).1)
        (some (transferPayload product fromLoc toLoc amount).2)))
    ∧ (transferPayload product fromLoc toLoc amount).1 +
        (transferPayload product fromLoc toLoc amount).2 =
        product.qtyWarehouse + product.qtyOffice
    ∧ (fromLoc = .Warehouse →
        (transferPayload product fromLoc toLoc amount).1 = product.qtyWarehouse - amount
        ∧ (transferPayload product fromLoc toLoc amount).2 = product.qtyOffice + amount)
    ∧ (fromLoc = .MainOffice →
        (transferPayload product fromLoc toLoc amount).2 = product.qtyOffice - amount
        ∧ (transferPayload product fromLoc toLoc amount).1 = product.qtyWarehouse + amount)
    ∧ (∀ r ∈ st.products, ¬ r.id = pid →
        r ∈ applyProductsUpdate st.products pid
          (some (transferPayload product fromLoc toLoc amount).1)
          (some (transferPayload product fromLoc toLoc amount).2)) := by
  refine ⟨?_, ?_, ?_, ?_, ?_⟩
  · unfold transferStock
    rw [hfind]
    by_cases h : remoteOk <;> simp [h]
  · cases fromLoc <;> cases toLoc <;> simp_all [transferPayload]
  · intro hW
    cases fromLoc <;> cases toLoc <;> simp_all [transferPayload]
  · intro hM
    cases fromLoc <;> cases toLoc <;> simp_all [transferPayload]
  · intro r hr hne
    unfold applyProductsUpdate
    have : (if r.id = pid then
        { r with qtyWarehouse := (some (transferPayload product fromLoc toLoc amount).1).getD r.qtyWarehouse,
                 qtyOffice := (some (transferPayload product fromLoc toLoc amount).2).getD r.qtyOffice }
      else r) = r := by rw [if_neg hne]
    exact this ▸ List.mem_map_of_mem _ hr

/-- Witness for C1 at a concrete transfer of 30 from the Warehouse
bucket of the (100, 20) product. -/
theorem transfer_conserves_total_witness :
    (transferPayload pA .Warehouse .MainOffice 30).1 = 70
    ∧ (transferPayload pA .Warehouse .MainOffice 30).2 = 50
    ∧ (transferPayload pA .Warehouse .MainOffice 30).1 +
        (transferPayload pA .Warehouse .MainOffice 30).2 =
        pA.qtyWarehouse + pA.qtyOffice := by
  refine ⟨by decide, by decide, ?_⟩
  exact (transfer_conserves_total stMgr "p1" .Warehouse .MainOffice 30 true pA
    (by decide) (by decide)).2.1

/-- Claim C10: for a product id the ledger does not know, `adjustStock`
and `transferStock` are complete no-ops — no state change, no alert, no
log write, and no remote call at all. -/
theorem unknown_product_silent_noop (st : LedgerState) (pid : String)
    (loc fromLoc toLoc : Location) (delta amount : Int) (reason : String)
    (remoteOk remoteOk2 : Bool)
    (hfind : st.products.find? (fun p => p.id == pid) = none) :
    adjustStock st pid loc delta reason remoteOk = ⟨st, [], [], []⟩
    ∧ transferStock st pid fromLoc toLoc amount remoteOk2 = ⟨st, [], [], []⟩ := by
  constructor
  · unfold adjustStock; rw [hfind]
  · unfold transferStock; rw [hfind]

/-- Witness for C10 at an id absent from the manager state. -/
theorem unknown_product_silent_noop_witness :
    stMgr.products.find? (fun p => p.id == "ghost") = none
    ∧ adjustStock stMgr "ghost" .Warehouse 5 "restock" true = ⟨stMgr, [], [], []⟩ := by
  refine ⟨by decide, ?_⟩
  exact (unknown_product_silent_noop stMgr "ghost" .Warehouse .Warehouse .MainOffice
    5 3 "restock" true true (by decide)).1

/-- Claim C7: when the remote write fails, every product/supplier
mutation (and stock adjust/transfer on a known product) leaves the
state exactly as it was, writes no log row, and raises a user-facing
alert — the operation fully no-ops. -/
theorem remote_failure_full_noop (st : LedgerState) (p : Product) (s : Supplier)
    (id : String) (pid : String) (loc fromLoc toLoc : Location)
    (delta amount : Int) (reason : String) (product : Product)
    (hmgr : isManagerOpt st.currentUser = true)
    (hfind : st.products.find? (fun q => q.id == pid) = some product) :
    addProduct st p false = ⟨st, [], ["Failed to add product."], false⟩
    ∧ updateProduct st p false = ⟨st, [], ["Failed to update product."], false⟩
    ∧ deleteProduct st id false = ⟨st, [], ["Failed to delete product."], false⟩
    ∧ addSupplier st s false = ⟨st, [], ["Failed to add supplier."], false⟩
    ∧ updateSupplier st s false = ⟨st, [], ["Failed to update supplier."], false⟩
    ∧ deleteSupplier st id false = ⟨st, [], ["Failed to delete supplier."], false⟩
    ∧ (adjustStock st pid loc delta reason false).state = st
    ∧ (adjustStock st pid loc delta reason false).logWrites = []
    ∧ (adjustStock st pid loc delta reason false).alerts = ["Failed to adjust stock."]
    ∧ (transferStock st pid fromLoc toLoc amount false).state = st
    ∧ (transferStock st pid fromLoc toLoc amount false).logWrites = []
    ∧ (transferStock st pid fromLoc toLoc amount false).alerts =
        ["Failed to transfer stock."] := by
  refine ⟨?_, ?_, ?_, ?_, ?_, ?_, ?_, ?_, ?_, ?_, ?_, ?_⟩ <;>
    simp [addProduct, updateProduct, deleteProduct, addSupplier, updateSupplier,
      deleteSupplier, adjustStock, transferStock, hmgr, hfind]

/-- Witness for C7 at the concrete manager state. -/
theorem remote_failure_full_noop_witness :
    addProduct stMgr pA false = ⟨stMgr, [], ["Failed to add product."], false⟩
    ∧ addSupplier stMgr sX false = ⟨stMgr, [], ["Failed to add supplier."], false⟩ := by
  have h := remote_failure_full_noop stMgr pA sX "p1" "p1" .Warehouse .Warehouse
    .MainOffice 5 3 "restock" pA (by decide) (by decide)
  exact ⟨h.1, h.2.2.2.1⟩

/-- Counterexample to C2 as stated: a STAFF actor's `addSupplier` is
not rejected — it reports success and grows the supplier collection. -/
theorem staff_add_supplier_not_rejected :
    isManagerOpt stStaff.currentUser = false
    ∧ (addSupplier stStaff sX true).ret = true
    ∧ (addSupplier stStaff sX true).state.suppliers = [sX]
    ∧ ¬ (addSupplier stStaff sX true).state.suppliers = stStaff.suppliers := by
  decide

/-- Claim C2 (amended): a non-MANAGER actor is rejected by the product
mutations — collection untouched, no log row, an authorization alert —
but the supplier mutations perform no role check at all: `addSupplier`
proceeds and appends regardless of the actor's role. -/
theorem nonmanager_rejection_amended (st : LedgerState) (p : Product) (s : Supplier)
    (id : String) (remoteOk : Bool)
    (h : isManagerOpt st.currentUser = false) :
    addProduct st p remoteOk = ⟨st, [], ["Only Managers can add products."], false⟩
    ∧ updateProduct st p remoteOk = ⟨st, [], ["Only Managers can update products."], false⟩
    ∧ deleteProduct st id remoteOk = ⟨st, [], ["Only Managers can delete products."], false⟩
    ∧ (addSupplier st s true).state.suppliers = st.suppliers ++ [s]
    ∧ (addSupplier st s true).ret = true := by
  refine ⟨?_, ?_, ?_, ?_, ?_⟩ <;>
    simp [addProduct, updateProduct, deleteProduct, addSupplier, h]

/-- Witness for the amended C2 at the concrete STAFF state. -/
theorem nonmanager_rejection_amended_witness :
    addProduct stStaff pA true = ⟨stStaff, [], ["Only Managers can add products."], false⟩
    ∧ (addSupplier stStaff sX true).state.suppliers = stStaff.suppliers ++ [sX] :=
  ⟨(nonmanager_rejection_amended stStaff pA sX "p1" true (by decide)).1,
   (nonmanager_rejection_amended stStaff pA sX "p1" true (by decide)).2.2.2.1⟩

/-- Counterexample to C3 as stated: a successful supplier add and a
successful invoice delete each append zero log entries, not one. -/
theorem successful_mutations_without_log :
    (addSupplier stMgr sX true).ret = true
    ∧ (addSupplier stMgr sX true).logWrites = []
    ∧ (deleteInvoice stMgr "i1" true).ret = true
    ∧ (deleteInvoice stMgr "i1" true).logWrites = [] := by
  decide

/-- Claim C3 (amended): with a MANAGER user, each successful product
add/update/delete, stock adjust, stock transfer, and remote-path
invoice add/update writes exactly one log row whose action kind and
subject match the operation and whose performer is the user's display
name — `adjustStock` logs ADD when `delta > 0` and REMOVE otherwise —
while supplier add/update/delete, invoice delete, and the local invoice
fallback write no log row at all. -/
theorem one_log_per_mutation_amended (st : LedgerState) (u : User)
    (p : Product) (s : Supplier) (id pid : String) (loc fromLoc toLoc : Location)
    (delta amount : Int) (reason : String) (d : InvoiceData) (inv : Invoice)
    (newId suffix : String) (dv : String → Int) (localOk : Bool) (product : Product)
    (hcu : st.currentUser = some u) (hrole : u.role = "MANAGER")
    (hfind : st.products.find? (fun q => q.id == pid) = some product)
    (hnl : startsWithLocal inv.id = false) :
    (addProduct st p true).logWrites = [⟨"CREATE", p.name, "Added new product", u.name⟩]
    ∧ (updateProduct st p true).logWrites = [⟨"UPDATE", p.name, "Updated details", u.name⟩]
    ∧ (deleteProduct st id true).logWrites =
        [⟨"DELETE", jsOr ((st.products.find? (fun q => q.id == id)).map Product.name) "Product",
          "Deleted product", u.name⟩]
    ∧ (adjustStock st pid loc delta reason true).logWrites =
        [⟨if delta > 0 then "ADD" else "REMOVE", product.name, s!"{reason} ({delta})", u.name⟩]
    ∧ (transferStock st pid fromLoc toLoc amount true).logWrites =
        [⟨"TRANSFER", product.name,
          "Moved " ++ toString amount ++ " " ++ product.unit ++ " to " ++ toLoc.str, u.name⟩]
    ∧ (addInvoice st d (some newId) suffix dv localOk).logWrites =
        [⟨"CREATE", "Invoice " ++ d.invoiceNumber, "Created invoice", u.name⟩]
    ∧ (updateInvoice st inv true dv localOk).logWrites =
        [⟨"UPDATE", "Invoice " ++ inv.invoiceNumber, "Updated invoice", u.name⟩]
    ∧ (addSupplier st s true).logWrites = []
    ∧ (updateSupplier st s true).logWrites = []
    ∧ (deleteSupplier st id true).logWrites = []
    ∧ (deleteInvoice st id true).logWrites = []
    ∧ (addInvoice st d none suffix dv localOk).logWrites = [] := by
  refine ⟨?_, ?_, ?_, ?_, ?_, ?_, ?_, ?_, ?_, ?_, ?_, ?_⟩ <;>
    simp [addProduct, updateProduct, deleteProduct, adjustStock, transferStock,
      addInvoice, updateInvoice, deleteInvoice, addSupplier, updateSupplier,
      deleteSupplier, saveInvoiceToLocal, logAction, isManagerOpt, hcu, hrole,
      hfind, hnl] <;>
    try (split <;> simp)

/-- Witness for the amended C3 at the concrete manager state. -/
theorem one_log_per_mutation_amended_witness :
    (addProduct stMgr pA true).logWrites =
      [⟨"CREATE", pA.name, "Added new product", "Alice"⟩]
    ∧ (addSupplier stMgr sX true).logWrites = [] := by
  have h := one_log_per_mutation_amended stMgr ⟨"u1", "Alice", "alice@ukchem.com", "MANAGER"⟩
    pA sX "p1" "p1" .Warehouse .Warehouse .MainOffice 5 3 "restock"
    ⟨"INV-1", "K", "A", "0", "2025-10-01", [], 0⟩ invA "nid" "sfx" (fun _ => 0) true pA
    (by decide) (by decide) (by decide) (by decide)
  exact ⟨h.1, h.2.2.2.2.2.2.2.1⟩

/-- Claim C8: the hardcoded admin address always resolves to role
MANAGER with exactly one write-behind role reconciliation; every
resolution issues at most one role update; any other email with an
absent profile self-heals to STAFF with no role update; and even the
total-failure path hands the admin address a MANAGER user. -/
theorem session_admin_override :
    (∀ uid lookup, (handleUserSession uid (some adminEmail) lookup).user.role = "MANAGER"
      ∧ (handleUserSession uid (some adminEmail) lookup).roleUpdateWrites = 1)
    ∧ (∀ uid email lookup, (handleUserSession uid email lookup).roleUpdateWrites ≤ 1)
    ∧ (∀ uid email, ¬ email = some adminEmail →
        (handleUserSession uid email none).user.role = "STAFF"
        ∧ (handleUserSession uid email none).roleUpdateWrites = 0)
    ∧ (∀ uid, handleUserSessionCatch uid (some adminEmail) =
        some ⟨uid, "Manager", adminEmail, "MANAGER"⟩) := by
  refine ⟨?_, ?_, ?_, ?_⟩
  · intro uid lookup
    cases lookup <;> simp [handleUserSession]
  · intro uid email lookup
    cases lookup <;> simp [handleUserSession] <;> split <;> simp
  · intro uid email h
    simp [handleUserSession, h]
  · intro uid
    simp [handleUserSessionCatch]

/-- Witness for C8: a concrete admin resolution with a missing profile
and a concrete staff resolution. -/
theorem session_admin_override_witness :
    (handleUserSession "u1" (some adminEmail) none).user.role = "MANAGER"
    ∧ (handleUserSession "u1" (some "x@y.z") none).user.role = "STAFF" :=
  ⟨(session_admin_override.1 "u1" none).1,
   (session_admin_override.2.2.1 "u1" (some "x@y.z") (by decide)).1⟩

/-- Claim C9: row-to-entity-to-row reproduces the wire row's semantic
values (id aside, which the insert payload never carries): exactly for
product rows whose date fields are not the empty string — null optional
fields included — and for invoice rows, where a missing or non-array
`items` value maps to the empty item list and serializes back as the
empty array. -/
theorem mapper_round_trip :
    (∀ r : ProductRow, ¬ r.production_date = some "" → ¬ r.expiration_date = some "" →
      productToRowData (productFromRow r) = r.toData)
    ∧ (∀ r : InvoiceRow, ∀ l, r.items = .arr l →
      invoiceToRowData (invoiceFromRow r) = r.toData)
    ∧ (∀ r : InvoiceRow, r.items = .nonArray →
      (invoiceFromRow r).items = []
      ∧ invoiceToRowData (invoiceFromRow r) = { r.toData with items := .arr [] }) := by
  refine ⟨?_, ?_, ?_⟩
  · intro r h1 h2
    simp [productToRowData, productFromRow, ProductRow.toData, jsOrNull]
    constructor
    · cases hp : r.production_date with
      | none => rfl
      | some v =>
        simp only []
        rw [if_neg]
        intro hv
        exact h1 (by rw [hp, hv])
    · cases hp : r.expiration_date with
      | none => rfl
      | some v =>
        simp only []
        rw [if_neg]
        intro hv
        exact h2 (by rw [hp, hv])
  · intro r l h
    simp [invoiceToRowData, invoiceFromRow, InvoiceRow.toData, h]
  · intro r h
    simp [invoiceToRowData, invoiceFromRow, InvoiceRow.toData, h]

/-- Witness for C9: a product row with NULL origin, delivery agent and
dates, and an invoice row with a non-array `items` value. -/
theorem mapper_round_trip_witness :
    productToRowData (productFromRow ⟨"p7", "Lye", "Bases", "kg", 3, 4, 1,
        none, none, none, none, 9, "Acme"⟩) =
      ProductRow.toData ⟨"p7", "Lye", "Bases", "kg", 3, 4, 1,
        none, none, none, none, 9, "Acme"⟩
    ∧ (invoiceFromRow ⟨"i7", "INV-1", "K", "A", "0", "2025-01-01",
        .nonArray, 12⟩).items = [] :=
  ⟨mapper_round_trip.1 ⟨"p7", "Lye", "Bases", "kg", 3, 4, 1,
      none, none, none, none, 9, "Acme"⟩ (by decide) (by decide),
   (mapper_round_trip.2.2 ⟨"i7", "INV-1", "K", "A", "0", "2025-01-01",
      .nonArray, 12⟩ (by decide)).1⟩

/-- Every item the form can ever hold satisfies `amount = quantity * rate`. -/
def itemsConsistent (l : List InvoiceItem) : Prop :=
  ∀ i ∈ l, i.amount = i.quantity * i.rate

theorem itemsConsistent_applyFormOp (l : List InvoiceItem) (op : FormOp)
    (h : itemsConsistent l) : itemsConsistent (applyFormOp l op) := by
  cases op with
  | addItem newId =>
    intro i hi
    rcases List.mem_append.mp hi with hi | hi
    · exact h i hi
    · simp at hi
      simp [hi]
  | removeItem id =>
    intro i hi
    exact h i (List.mem_of_mem_filter hi)
  | itemChange id f =>
    intro i hi
    rcases List.mem_map.mp hi with ⟨j, hj, hji⟩
    subst hji
    by_cases hid : j.id = id
    · simp only [if_pos hid]
      cases f <;> simp [applyFieldChange, h j hj]
    · simp only [if_neg hid]
      exact h j hj
  | productSelect itemId productName productPrice =>
    intro i hi
    rcases List.mem_map.mp hi with ⟨j, hj, hji⟩
    subst hji
    by_cases hid : j.id = itemId
    · simp [if_pos hid, Int.mul_comm]
    · simp only [if_neg hid]
      exact h j hj

theorem itemsConsistent_applyFormOps (l : List InvoiceItem) (ops : List FormOp)
    (h : itemsConsistent l) : itemsConsistent (applyFormOps l ops) := by
  induction ops generalizing l with
  | nil => exact h
  | cons op ops ih => exact ih _ (itemsConsistent_applyFormOp l op h)

theorem handleSaveTotal_eq_sum (l : List InvoiceItem) :
    handleSaveTotal l = (l.map InvoiceItem.amount).sum := by
  unfold handleSaveTotal
  have key : ∀ (m : List InvoiceItem) (acc : Int),
      m.foldl (fun sum item => sum + item.amount) acc = acc + (m.map InvoiceItem.amount).sum := by
    intro m
    induction m with
    | nil => intro acc; simp
    | cons x xs ih =>
      intro acc
      simp [ih, Int.add_assoc]
  simpa using key l 0

/-- Claim C6: for any sequence of form interactions starting from the
initial one-line form, the total `handleSave` computes equals the sum
of `quantity * rate` over the items; in particular a single
zero-quantity line yields amount 0 and total 0. -/
theorem invoice_total_is_sum_of_products :
    (∀ ops : List FormOp,
      handleSaveTotal (applyFormOps initialFormItems ops) =
        ((applyFormOps initialFormItems ops).map
          (fun i => i.quantity * i.rate)).sum)
    ∧ applyFormOps initialFormItems [.itemChange "1" (.quantity 0)] =
        [⟨"1", "", 0, 0, 0⟩]
    ∧ handleSaveTotal (applyFormOps initialFormItems
        [.itemChange "1" (.quantity 0)]) = 0 := by
  refine ⟨?_, by decide, by decide⟩
  intro ops
  have hcons : itemsConsistent (applyFormOps initialFormItems ops) := by
    apply itemsConsistent_applyFormOps
    intro i hi
    simp [initialFormItems] at hi
    simp [hi]
  rw [handleSaveTotal_eq_sum]
  congr 1
  apply List.map_congr_left
  intro i hi
  exact hcons i hi

/-! ## Notification id arithmetic: the three deterministic id prefixes
are pairwise incompatible and injective in the product id. -/

theorem pre_inj (pre a b : String) : (pre ++ a = pre ++ b) ↔ a = b := by
  constructor
  · intro h
    have h2 := congrArg String.data h
    simp [String.data_append] at h2
    exact String.ext h2
  · intro h; rw [h]

theorem low_ne_exp (a b : String) : ¬ ("low-" ++ a = "exp-" ++ b) := by
  intro h
  have h2 := congrArg String.data h
  simp [String.data_append] at h2

theorem exp_ne_low (a b : String) : ¬ ("exp-" ++ a = "low-" ++ b) := by
  intro h
  have h2 := congrArg String.data h
  simp [String.data_append] at h2

theorem low_ne_soon (a b : String) : ¬ ("low-" ++ a = "soon-" ++ b) := by
  intro h
  have h2 := congrArg String.data h
  simp [String.data_append] at h2

theorem soon_ne_low (a b : String) : ¬ ("soon-" ++ a = "low-" ++ b) := by
  intro h
  have h2 := congrArg String.data h
  simp [String.data_append] at h2

theorem exp_ne_soon (a b : String) : ¬ ("exp-" ++ a = "soon-" ++ b) := by
  intro h
  have h2 := congrArg String.data h
  simp [String.data_append] at h2

theorem soon_ne_exp (a b : String) : ¬ ("soon-" ++ a = "exp-" ++ b) := by
  intro h
  have h2 := congrArg String.data h
  simp [String.data_append] at h2

theorem mem_checkNotifications (dv : Option String → Option Int)
    (ps : List Product) (th now : Int) (n : Notif) :
    n ∈ checkNotifications dv ps th now ↔ ∃ q ∈ ps, n ∈ notifsFor dv th now q := by
  simp [checkNotifications]

theorem mem_notifsFor (dv : Option String → Option Int) (th now : Int)
    (q : Product) (n : Notif) :
    n ∈ notifsFor dv th now q ↔
      (n = ⟨"low-" ++ q.id, "Low Stock Alert", "WARNING"⟩
        ∧ q.qtyWarehouse + q.qtyOffice ≤ q.reorderLevel)
      ∨ (n = ⟨"exp-" ++ q.id, "Product Expired", "DANGER"⟩
        ∧ ltNaN (dv q.expirationDate) now = true)
      ∨ (n = ⟨"soon-" ++ q.id, "Expiring Soon", "INFO"⟩
        ∧ ltNaN (dv q.expirationDate) now = false
        ∧ ltNaN (dv q.expirationDate) (now + th) = true) := by
  simp only [notifsFor]
  split_ifs with h1 h2 h3 <;>
    simp [*, List.mem_append, List.mem_singleton]

theorem countP_checkNotifications (dv : Option String → Option Int)
    (ps : List Product) (th now : Int) (f : Notif → Bool) :
    (checkNotifications dv ps th now).countP f =
      (ps.map (fun q => (notifsFor dv th now q).countP f)).sum := by
  induction ps with
  | nil => rfl
  | cons q qs ih =>
    simp only [checkNotifications, List.flatMap_cons, List.countP_append,
      List.map_cons, List.sum_cons]
    rw [← ih]
    rfl

theorem countP_notifsFor_low (dv : Option String → Option Int) (th now : Int)
    (q : Product) (pid : String) :
    (notifsFor dv th now q).countP (fun n => n.id == "low-" ++ pid) =
      if q.id = pid ∧ q.qtyWarehouse + q.qtyOffice ≤ q.reorderLevel then 1 else 0 := by
  simp only [notifsFor]
  split_ifs with h1 h2 h3 <;>
    simp [*, List.countP_append, List.countP_cons, pre_inj, exp_ne_low, soon_ne_low] <;> tauto

theorem countP_notifsFor_exp (dv : Option String → Option Int) (th now : Int)
    (q : Product) (pid : String) :
    (notifsFor dv th now q).countP (fun n => n.id == "exp-" ++ pid) =
      if q.id = pid ∧ ltNaN (dv q.expirationDate) now = true then 1 else 0 := by
  simp only [notifsFor]
  split_ifs with h1 h2 h3 <;>
    simp [*, List.countP_append, List.countP_cons, pre_inj, low_ne_exp, soon_ne_exp] <;> tauto

theorem countP_notifsFor_soon (dv : Option String → Option Int) (th now : Int)
    (q : Product) (pid : String) :
    (notifsFor dv th now q).countP (fun n => n.id == "soon-" ++ pid) =
      if q.id = pid ∧ ltNaN (dv q.expirationDate) now = false
        ∧ ltNaN (dv q.expirationDate) (now + th) = true then 1 else 0 := by
  simp only [notifsFor]
  split_ifs with h1 h2 h3 <;>
    simp [*, List.countP_append, List.countP_cons, pre_inj, low_ne_soon, exp_ne_soon] <;> (try tauto) <;> simp_all

theorem sum_per_product_le_one (l : List Product) (pid : String) (g : Product → Nat)
    (hg : ∀ q, g q ≤ 1) (hz : ∀ q, ¬ q.id = pid → g q = 0)
    (hnd : (l.map Product.id).Nodup) :
    (l.map g).sum ≤ 1 := by
  induction l with
  | nil => simp
  | cons q qs ih =>
    simp only [List.map_cons, List.sum_cons]
    have hnotmem : ¬ q.id ∈ qs.map Product.id := (List.nodup_cons.mp hnd).1
    have hnd' : (qs.map Product.id).Nodup := (List.nodup_cons.mp hnd).2
    by_cases hq : q.id = pid
    · have hrest : (qs.map g).sum = 0 := by
        apply List.sum_eq_zero
        intro x hx
        rcases List.mem_map.mp hx with ⟨r, hr, hrx⟩
        rw [← hrx]
        apply hz
        intro hrid
        exact hnotmem (by
          rw [hq, ← hrid]
          exact List.mem_map_of_mem _ hr)
      have := hg q
      omega
    · rw [hz q hq]
      have := ih hnd'
      omega

/-- Claim C4: the derived list holds a WARNING notification with id
`low-<productId>` exactly when the product's total stock is at or below
its reorder level; one derivation never emits two low entries for a
product, and re-running the derivation on an unchanged state reproduces
the state verbatim (the list is replaced, not appended to). -/
theorem low_stock_notification_iff (dv : Option String → Option Int)
    (th now : Int) (st : LedgerState) (p : Product)
    (hnd : (st.products.map Product.id).Nodup) (hp : p ∈ st.products) :
    ((∃ n ∈ checkNotifications dv st.products th now,
        n.id = "low-" ++ p.id ∧ n.ntype = "WARNING") ↔
      p.qtyWarehouse + p.qtyOffice ≤ p.reorderLevel)
    ∧ (checkNotifications dv st.products th now).countP
        (fun n => n.id == "low-" ++ p.id) ≤ 1
    ∧ runDerivation dv th now (runDerivation dv th now st) =
        runDerivation dv th now st := by
  refine ⟨?_, ?_, ?_⟩
  · constructor
    · rintro ⟨n, hn, hid, -⟩
      rcases (mem_checkNotifications dv st.products th now n).mp hn with ⟨q, hq, hnq⟩
      rcases (mem_notifsFor dv th now q n).mp hnq with ⟨rfl, hcond⟩ | ⟨rfl, -⟩ | ⟨rfl, -⟩
      · have hqp : q = p :=
          List.inj_on_of_nodup_map hnd hq hp ((pre_inj "low-" q.id p.id).mp hid)
        rw [← hqp]
        exact hcond
      · exact absurd hid (exp_ne_low q.id p.id)
      · exact absurd hid (soon_ne_low q.id p.id)
    · intro hcond
      refine ⟨⟨"low-" ++ p.id, "Low Stock Alert", "WARNING"⟩, ?_, rfl, rfl⟩
      exact (mem_checkNotifications dv st.products th now _).mpr
        ⟨p, hp, (mem_notifsFor dv th now p _).mpr (Or.inl ⟨rfl, hcond⟩)⟩
  · rw [countP_checkNotifications]
    refine sum_per_product_le_one st.products p.id _ ?_ ?_ hnd
    · intro q
      rw [countP_notifsFor_low]
      split <;> omega
    · intro q hq
      rw [countP_notifsFor_low, if_neg]
      rintro ⟨h1, -⟩
      exact hq h1
  · rfl

/-- Witness for C4: in the manager state the (100, 20) product with
reorder level 10 is not low, so no `low-p1` entry is derived. -/
theorem low_stock_notification_iff_witness :
    ¬ (∃ n ∈ checkNotifications (fun _ => none) stMgr.products 30 0,
        n.id = "low-" ++ pA.id ∧ n.ntype = "WARNING") := by
  have h := (low_stock_notification_iff (fun _ => none) 30 0 stMgr pA
    (by decide) (by decide)).1
  intro hex
  have := h.mp hex
  revert this
  decide

/-- Claim C5: for a product whose expiry parses to `v`, the derivation
emits a DANGER `exp-<id>` entry exactly when `v < now`, and a
`soon-<id>` entry exactly when the product is not expired and
`v < now + threshold`; neither category is ever emitted twice for one
product in one recomputation. -/
theorem expiry_notifications_iff (dv : Option String → Option Int)
    (th now : Int) (st : LedgerState) (p : Product) (v : Int)
    (hnd : (st.products.map Product.id).Nodup) (hp : p ∈ st.products)
    (hv : dv p.expirationDate = some v) :
    ((∃ n ∈ checkNotifications dv st.products th now,
        n.id = "exp-" ++ p.id ∧ n.ntype = "DANGER") ↔ v < now)
    ∧ ((∃ n ∈ checkNotifications dv st.products th now,
        n.id = "soon-" ++ p.id) ↔ (¬ v < now ∧ v < now + th))
    ∧ (checkNotifications dv st.products th now).countP
        (fun n => n.id == "exp-" ++ p.id) ≤ 1
    ∧ (checkNotifications dv st.products th now).countP
        (fun n => n.id == "soon-" ++ p.id) ≤ 1 := by
  refine ⟨?_, ?_, ?_, ?_⟩
  · constructor
    · rintro ⟨n, hn, hid, -⟩
      rcases (mem_checkNotifications dv st.products th now n).mp hn with ⟨q, hq, hnq⟩
      rcases (mem_notifsFor dv th now q n).mp hnq with ⟨rfl, -⟩ | ⟨rfl, hcond⟩ | ⟨rfl, -⟩
      · exact absurd hid (low_ne_exp q.id p.id)
      · have hqp : q = p :=
          List.inj_on_of_nodup_map hnd hq hp ((pre_inj "exp-" q.id p.id).mp hid)
        rw [hqp, hv] at hcond
        simpa [ltNaN] using hcond
      · exact absurd hid (soon_ne_exp q.id p.id)
    · intro hcond
      refine ⟨⟨"exp-" ++ p.id, "Product Expired", "DANGER"⟩, ?_, rfl, rfl⟩
      refine (mem_checkNotifications dv st.products th now _).mpr
        ⟨p, hp, (mem_notifsFor dv th now p _).mpr (Or.inr (Or.inl ⟨rfl, ?_⟩))⟩
      simpa [ltNaN, hv] using hcond
  · constructor
    · rintro ⟨n, hn, hid⟩
      rcases (mem_checkNotifications dv st.products th now n).mp hn with ⟨q, hq, hnq⟩
      rcases (mem_notifsFor dv th now q n).mp hnq with ⟨rfl, -⟩ | ⟨rfl, -⟩ | ⟨rfl, hc1, hc2⟩
      · exact absurd hid (low_ne_soon q.id p.id)
      · exact absurd hid (exp_ne_soon q.id p.id)
      · have hqp : q = p :=
          List.inj_on_of_nodup_map hnd hq hp ((pre_inj "soon-" q.id p.id).mp hid)
        rw [hqp, hv] at hc1 hc2
        constructor
        · simpa [ltNaN] using hc1
        · simpa [ltNaN] using hc2
    · rintro ⟨h1, h2⟩
      refine ⟨⟨"soon-" ++ p.id, "Expiring Soon", "INFO"⟩, ?_, rfl⟩
      refine (mem_checkNotifications dv st.products th now _).mpr
        ⟨p, hp, (mem_notifsFor dv th now p _).mpr (Or.inr (Or.inr ⟨rfl, ?_, ?_⟩))⟩
      · simpa [ltNaN, hv] using h1
      · simpa [ltNaN, hv] using h2
  · rw [countP_checkNotifications]
    refine sum_per_product_le_one st.products p.id _ ?_ ?_ hnd
    · intro q
      rw [countP_notifsFor_exp]
      split <;> omega
    · intro q hq
      rw [countP_notifsFor_exp, if_neg]
      rintro ⟨h1, -⟩
      exact hq h1
  · rw [countP_checkNotifications]
    refine sum_per_product_le_one st.products p.id _ ?_ ?_ hnd
    · intro q
      rw [countP_notifsFor_soon]
      split <;> omega
    · intro q hq
      rw [countP_notifsFor_soon, if_neg]
      rintro ⟨h1, -⟩
      exact hq h1

/-- Witness for C5: with a parser sending every date to day 5 and `now`
at day 10, the sample product is flagged expired (DANGER). -/
theorem expiry_notifications_iff_witness :
    ∃ n ∈ checkNotifications (fun _ => some 5) stMgr.products 30 10,
      n.id = "exp-" ++ pA.id ∧ n.ntype = "DANGER" :=
  ((expiry_notifications_iff (fun _ => some 5) 30 10 stMgr pA 5
    (by decide) (by decide) rfl).1).mpr (by decide)

end UKChem
